import Mathlib

/-!
Verification development for the `heysf` document acquisition and analysis
pipeline (`backend/app/services/{scraper,analyzer,storage}.py` and
`backend/app/models.py`).

Strings are modelled as Lean `String` at the interface level and as
`List Char` where index arithmetic matters (the chunker); effectful
collaborators (the HTTP session, S3, the LLM client, the database session)
are modelled as explicit oracle functions and explicit state passing, with
a raised exception in a collaborator materialised as `none`.
-/

set_option maxHeartbeats 1000000

namespace HeySF

/-- Python truthiness of an optional string: `None` and `""` are falsy. -/
def truthyS : Option String → Bool
  | none => false
  | some s => s ≠ ""

/-! ## Chunker (`DocumentAnalyzer._chunk_content`, analyzer.py lines 203-239)

The content is a `List Char`; positions are indices into it, exactly as in
the Python code. -/

/-- Python slice `content[start:stop]` (on a list of characters). -/
def pySlice (s : List Char) (start stop : Nat) : List Char :=
  (s.take stop).drop start

/-- Does `sub` occur in `s` at index `i`? -/
def matchesAt (s sub : List Char) (i : Nat) : Bool :=
  sub.isPrefixOf (s.drop i)

/-- Python `s.rfind(sub, start, stop)`: the largest index `i` with
`start ≤ i`, `i + len(sub) ≤ stop` and `sub` occurring in `s` at `i`;
`none` models Python's `-1`. -/
def pyRfind (s sub : List Char) (start stop : Nat) : Option Nat :=
  ((List.range stop).filter
    (fun i => decide (start ≤ i) && decide (i + sub.length ≤ stop) && matchesAt s sub i)).getLast?

/-- The breakpoint search of `_chunk_content` (analyzer.py lines 225-231):
first a paragraph break `"\n\n"`, and only if none is found a sentence
break `". "` (whose index is shifted past the period and space). -/
def chunkBreakPos (content : List Char) (curPos endPos : Nat) : Option Nat :=
  match pyRfind content ['\n', '\n'] curPos endPos with
  | some b => some b
  | none =>
    match pyRfind content ['.', ' '] curPos endPos with
    | some b => some (b + 2)
    | none => none

/-- The end position chosen for the piece starting at `curPos`
(analyzer.py lines 221-234): `curPos + maxChars`, moved back to a
breakpoint when one exists strictly after `curPos`, and left at the raw
boundary for the final piece. -/
def chunkEnd (content : List Char) (maxChars curPos : Nat) : Nat :=
  let endPos := curPos + maxChars
  if endPos < content.length then
    match chunkBreakPos content curPos endPos with
    | some b => if curPos < b then b else endPos
    | none => endPos
  else endPos

/-- The `while current_pos < len(content)` loop of `_chunk_content`
(analyzer.py lines 220-237), with explicit fuel; `content.length` units of
fuel suffice whenever `1 ≤ maxChars`. -/
def chunkLoop (content : List Char) (maxChars : Nat) : Nat → Nat → List (List Char)
  | 0, _ => []
  | fuel + 1, curPos =>
    if curPos < content.length then
      pySlice content curPos (chunkEnd content maxChars curPos) ::
        chunkLoop content maxChars fuel (chunkEnd content maxChars curPos)
    else []

/-- `DocumentAnalyzer._chunk_content` (analyzer.py lines 203-239). -/
def chunk_content (content : List Char) (maxChars : Nat) : List (List Char) :=
  if content.length ≤ maxChars then [content]
  else chunkLoop content maxChars content.length 0

/-! ### Chunker lemmas -/

theorem pyRfind_sound {s sub : List Char} {start stop i : Nat}
    (h : pyRfind s sub start stop = some i) :
    start ≤ i ∧ i + sub.length ≤ stop ∧ matchesAt s sub i = true := by
  have hmem : i ∈ (List.range stop).filter
      (fun i => decide (start ≤ i) && decide (i + sub.length ≤ stop) && matchesAt s sub i) := by
    have := List.mem_getLast?_eq_getLast (l := (List.range stop).filter
      (fun i => decide (start ≤ i) && decide (i + sub.length ≤ stop) && matchesAt s sub i))
      (x := i) h
    obtain ⟨hne, rfl⟩ := this
    exact List.getLast_mem hne
  have hp := (List.mem_filter.mp hmem).2
  simp only [Bool.and_eq_true, decide_eq_true_eq] at hp
  exact ⟨hp.1.1, hp.1.2, hp.2⟩

theorem chunkBreakPos_le {content : List Char} {curPos endPos b : Nat}
    (h : chunkBreakPos content curPos endPos = some b) : b ≤ endPos := by
  unfold chunkBreakPos at h
  cases hp : pyRfind content ['\n', '\n'] curPos endPos with
  | some b' =>
    rw [hp] at h
    cases h
    have := (pyRfind_sound hp).2.1
    omega
  | none =>
    rw [hp] at h
    cases hs : pyRfind content ['.', ' '] curPos endPos with
    | some b' =>
      rw [hs] at h
      cases h
      have := (pyRfind_sound hs).2.1
      simp only [List.length_cons, List.length_nil] at this
      omega
    | none => rw [hs] at h; cases h

theorem chunkEnd_le (content : List Char) (maxChars curPos : Nat) :
    chunkEnd content maxChars curPos ≤ curPos + maxChars := by
  simp only [chunkEnd]
  split
  · cases hb : chunkBreakPos content curPos (curPos + maxChars) with
    | some b =>
      simp only [hb]
      split
      · have := chunkBreakPos_le hb; omega
      · omega
    | none => simp [hb]
  · omega

theorem chunkEnd_advances (content : List Char) {maxChars : Nat} (curPos : Nat)
    (hm : 1 ≤ maxChars) : curPos < chunkEnd content maxChars curPos := by
  simp only [chunkEnd]
  split
  · cases hb : chunkBreakPos content curPos (curPos + maxChars) with
    | some b =>
      simp only [hb]
      split
      · omega
      · omega
    | none => simp only [hb]; omega
  · omega

theorem chunkLoop_flatten (content : List Char) {maxChars : Nat} (hm : 1 ≤ maxChars) :
    ∀ fuel curPos, content.length - curPos ≤ fuel →
      (chunkLoop content maxChars fuel curPos).flatten = content.drop curPos := by
  intro fuel
  induction fuel with
  | zero =>
    intro curPos hf
    simp only [chunkLoop, List.flatten_nil]
    rw [List.drop_eq_nil_iff.mpr (by omega)]
  | succ n ih =>
    intro curPos hf
    simp only [chunkLoop]
    split
    · next hlt =>
      have hadv := chunkEnd_advances content curPos hm
      have hrest := ih (chunkEnd content maxChars curPos) (by omega)
      simp only [List.flatten_cons, hrest]
      unfold pySlice
      rw [List.drop_take]
      have hdd : content.drop (chunkEnd content maxChars curPos)
          = (content.drop curPos).drop (chunkEnd content maxChars curPos - curPos) := by
        rw [List.drop_drop]
        congr 1
        omega
      rw [hdd, List.take_append_drop]
    · next hge =>
      simp only [List.flatten_nil]
      rw [List.drop_eq_nil_iff.mpr (by omega)]

theorem chunkLoop_piece_length (content : List Char) (maxChars : Nat) :
    ∀ fuel curPos piece, piece ∈ chunkLoop content maxChars fuel curPos →
      piece.length ≤ maxChars := by
  intro fuel
  induction fuel with
  | zero => intro curPos piece h; simp [chunkLoop] at h
  | succ n ih =>
    intro curPos piece h
    simp only [chunkLoop] at h
    split at h
    · rcases List.mem_cons.mp h with hh | ht
      · subst hh
        have hle := chunkEnd_le content maxChars curPos
        simp only [pySlice, List.length_drop, List.length_take]
        omega
      · exact ih _ _ ht
    · simp at h

theorem chunkLoop_piece_nonempty (content : List Char) {maxChars : Nat} (hm : 1 ≤ maxChars) :
    ∀ fuel curPos piece, piece ∈ chunkLoop content maxChars fuel curPos →
      piece ≠ [] := by
  intro fuel
  induction fuel with
  | zero => intro curPos piece h; simp [chunkLoop] at h
  | succ n ih =>
    intro curPos piece h
    simp only [chunkLoop] at h
    split at h
    · next hlt =>
      rcases List.mem_cons.mp h with hh | ht
      · subst hh
        have hadv := chunkEnd_advances content curPos hm
        have : (pySlice content curPos (chunkEnd content maxChars curPos)).length > 0 := by
          simp only [pySlice, List.length_drop, List.length_take]
          omega
        intro hnil
        rw [hnil] at this
        simp at this
      · exact ih _ _ ht
    · simp at h

theorem chunkLoop_count (content : List Char) {maxChars : Nat} (hm : 1 ≤ maxChars) :
    ∀ fuel curPos, (chunkLoop content maxChars fuel curPos).length
      ≤ content.length - curPos := by
  intro fuel
  induction fuel with
  | zero => intro curPos; simp [chunkLoop]
  | succ n ih =>
    intro curPos
    simp only [chunkLoop]
    split
    · next hlt =>
      have hadv := chunkEnd_advances content curPos hm
      have := ih (chunkEnd content maxChars curPos)
      simp only [List.length_cons]
      omega
    · simp

theorem chunkLoop_fuel_stable (content : List Char) {maxChars : Nat} (hm : 1 ≤ maxChars) :
    ∀ fuel fuel' curPos, content.length - curPos ≤ fuel → content.length - curPos ≤ fuel' →
      chunkLoop content maxChars fuel curPos = chunkLoop content maxChars fuel' curPos := by
  intro fuel
  induction fuel with
  | zero =>
    intro fuel' curPos hf hf'
    cases fuel' with
    | zero => rfl
    | succ m =>
      simp only [chunkLoop]
      rw [if_neg (by omega)]
  | succ n ih =>
    intro fuel' curPos hf hf'
    cases fuel' with
    | zero =>
      simp only [chunkLoop]
      rw [if_neg (by omega)]
    | succ m =>
      simp only [chunkLoop]
      by_cases hlt : curPos < content.length
      · rw [if_pos hlt, if_pos hlt]
        have hadv := chunkEnd_advances content curPos hm
        rw [ih m (chunkEnd content maxChars curPos) (by omega) (by omega)]
      · rw [if_neg hlt, if_neg hlt]

/-! ### Claim theorems about the chunker -/

/-- C1: for every text and every `maxSize ≥ 1`, the pieces returned by
`_chunk_content` are contiguous slices of the text in order — concatenating
all pieces in order reproduces the text exactly, with no character lost or
duplicated. -/
theorem chunk_content_lossless (content : List Char) (maxChars : Nat) (hm : 1 ≤ maxChars) :
    (chunk_content content maxChars).flatten = content := by
  unfold chunk_content
  split
  · simp
  · simpa using chunkLoop_flatten content hm content.length 0 (by omega)

/-- Witness for C1 on a concrete splitting input. -/
theorem chunk_content_lossless_witness :
    1 ≤ 5 ∧ (chunk_content "hello, chunked world".data 5).flatten = "hello, chunked world".data :=
  ⟨by decide, chunk_content_lossless "hello, chunked world".data 5 (by decide)⟩

/-- C5: for every input and `maxSize ≥ 1`, every piece returned by
`_chunk_content` has length at most `maxSize`, and when the input's length
is at most `maxSize` the result is exactly the single piece equal to the
input. -/
theorem chunk_content_size_bound (content : List Char) (maxChars : Nat) (hm : 1 ≤ maxChars) :
    (∀ piece ∈ chunk_content content maxChars, piece.length ≤ maxChars) ∧
    (content.length ≤ maxChars → chunk_content content maxChars = [content]) := by
  constructor
  · intro piece hp
    unfold chunk_content at hp
    split at hp
    · next hle =>
      simp only [List.mem_singleton] at hp
      subst hp
      exact hle
    · exact chunkLoop_piece_length content maxChars _ _ _ hp
  · intro hle
    unfold chunk_content
    rw [if_pos hle]

/-- Witness for C5 on a concrete splitting input. -/
theorem chunk_content_size_bound_witness :
    1 ≤ 4 ∧
    ((∀ piece ∈ chunk_content "abcdefghij".data 4, piece.length ≤ 4) ∧
      ("abcdefghij".data.length ≤ 4 → chunk_content "abcdefghij".data 4 = ["abcdefghij".data])) :=
  ⟨by decide, chunk_content_size_bound "abcdefghij".data 4 (by decide)⟩

/-- C10: for every input text and `maxSize ≥ 1` the chunking loop
terminates: every iteration strictly advances the current position (a
backward-found breakpoint is used only when it lies strictly after the
current start), every piece the loop produces is non-empty, the number of
pieces is at most the input's length, and any fuel of at least the input's
length computes the same (fixed) result, so the `while` loop reaches its
exit condition. -/
theorem chunk_loop_terminates (content : List Char) (maxChars : Nat) (hm : 1 ≤ maxChars) :
    (∀ curPos, curPos < chunkEnd content maxChars curPos) ∧
    (∀ piece ∈ chunkLoop content maxChars content.length 0, piece ≠ []) ∧
    (chunkLoop content maxChars content.length 0).length ≤ content.length ∧
    (∀ fuel, content.length ≤ fuel →
      chunkLoop content maxChars fuel 0 = chunkLoop content maxChars content.length 0) := by
  refine ⟨fun curPos => chunkEnd_advances content curPos hm,
    fun piece hp => chunkLoop_piece_nonempty content hm _ _ _ hp,
    ?_, fun fuel hf => chunkLoop_fuel_stable content hm fuel content.length 0 (by omega) (by omega)⟩
  have := chunkLoop_count content hm content.length 0
  omega

/-- Witness for C10 on a concrete splitting input. -/
theorem chunk_loop_terminates_witness :
    1 ≤ 3 ∧
    ((∀ curPos, curPos < chunkEnd "ab. cd. ef".data 3 curPos) ∧
      (∀ piece ∈ chunkLoop "ab. cd. ef".data 3 "ab. cd. ef".data.length 0, piece ≠ []) ∧
      (chunkLoop "ab. cd. ef".data 3 "ab. cd. ef".data.length 0).length ≤ "ab. cd. ef".data.length ∧
      (∀ fuel, "ab. cd. ef".data.length ≤ fuel →
        chunkLoop "ab. cd. ef".data 3 fuel 0 = chunkLoop "ab. cd. ef".data 3 "ab. cd. ef".data.length 0)) :=
  ⟨by decide, chunk_loop_terminates "ab. cd. ef".data 3 (by decide)⟩

/-! ## Data model (`backend/app/models.py`)

Timestamps and autoincrement ids are managed by the ORM and are irrelevant
to the claims; the fields the pipeline reads and writes are kept. -/

/-- `DocumentStatus` (models.py lines 12-18). -/
inductive DocumentStatus where
  | PENDING
  | SCRAPED
  | ANALYZING
  | ANALYZED
  | ERROR
deriving DecidableEq, Repr

/-- `AnalysisType` (models.py lines 21-26). -/
inductive AnalysisType where
  | CUSTOM_PROMPT
  | SUMMARY
  | ACTION_ITEMS
  | TOPICS
deriving DecidableEq, Repr

/-- `Document` (models.py lines 29-44): `file_path` is the S3 key, absent
until content has been cached. -/
structure Document where
  id : Nat
  title : String
  url : String
  file_path : Option String
  status : DocumentStatus
deriving DecidableEq, Repr

/-- `Analysis` (models.py lines 47-59). -/
structure Analysis where
  document_id : Nat
  analysis_type : AnalysisType
  content : String
deriving DecidableEq, Repr

/-! ## External collaborators

`Services` packages the effectful dependencies of `DocumentAnalyzer` as
oracles: S3 (`storage.py`), the scraper's document fetch (`scraper.py`),
the LLM client and the configured default prompt (`config.get_custom_prompt`).
A `none` result models a caught exception or unusable response. -/

structure Services where
  s3download : String → Option String
  s3upload : String → String → Bool
  fetchDocument : String → Option String
  llm : String → Option String
  custom_prompt_config : String

/-! ## Analysis orchestrator (`DocumentAnalyzer`, analyzer.py) -/

/-- The summarization prompt of `_analyze_content_with_chunking`
(analyzer.py lines 154-165). -/
def summaryPromptText : String :=
  "\nSummarize this SF Board of Supervisors meeting minutes, focusing on:\n- Key decisions and votes\n- Major agenda items discussed  \n- Action items and deadlines\n- Financial items and budget decisions\n- Public comments themes\n\nKeep the summary comprehensive but under 1500 words.\n\nDocument to summarize:\n"

/-- The direct-path prompt (analyzer.py lines 136-142). -/
def fullPrompt (prompt content : String) : String :=
  "\n" ++ prompt ++ "\n\nPlease analyze the following SF Board of Supervisors meeting minutes:\n\n"
    ++ content ++ "\n"

/-- The per-chunk summarization prompt (analyzer.py line 172),
`i` being the zero-based chunk index. -/
def chunkPrompt (numChunks i : Nat) (chunk : String) : String :=
  summaryPromptText ++ "\n\nPart " ++ toString (i + 1) ++ " of " ++ toString numChunks
    ++ ":\n" ++ chunk

/-- The final combining prompt (analyzer.py lines 188-194). -/
def finalPrompt (prompt combined : String) : String :=
  "\n" ++ prompt
    ++ "\n\nBased on the following comprehensive summary of SF Board of Supervisors meeting minutes:\n\n"
    ++ combined ++ "\n"

/-- The `for i, chunk in enumerate(chunks)` summarization loop
(analyzer.py lines 171-178): one LLM call per chunk; a failed call is
skipped, a successful summary is appended. Returns the accumulated
summaries and the number of LLM calls made. -/
def summarizeChunks (llm : String → Option String) (numChunks : Nat) :
    List (List Char) → Nat → List String → Nat → List String × Nat
  | [], _, acc, calls => (acc, calls)
  | c :: rest, i, acc, calls =>
    match llm (chunkPrompt numChunks i (String.mk c)) with
    | some s => summarizeChunks llm numChunks rest (i + 1) (acc ++ [s]) (calls + 1)
    | none => summarizeChunks llm numChunks rest (i + 1) acc (calls + 1)

/-- `DocumentAnalyzer._analyze_content_with_chunking` (analyzer.py lines
119-201). Returns the analysis result (`none` for a failure) and the
number of LLM calls made. -/
def analyze_content_with_chunking (llm : String → Option String) (content prompt : String) :
    Option String × Nat :=
  let estimated_tokens := content.length / 4 + prompt.length / 4 + 500
  if estimated_tokens ≤ 8000 then
    (llm (fullPrompt prompt content), 1)
  else
    let chunks := chunk_content content.data 20000
    let sc := summarizeChunks llm chunks.length chunks 0 [] 0
    if sc.1.isEmpty then (none, sc.2)
    else
      let combined_summary := String.intercalate "\n\n" sc.1
      (llm (finalPrompt prompt combined_summary), sc.2 + 1)

/-- `DocumentAnalyzer._get_document_content` (analyzer.py lines 90-117),
including the best-effort opportunistic S3 upload. Returns the resolved
content, the (possibly updated) document, and the number of network
fetches of the document's URL. -/
def get_document_content (sv : Services) (doc : Document) :
    Option String × Document × Nat :=
  let cached : Option String :=
    if truthyS doc.file_path then sv.s3download (doc.file_path.getD "") else none
  if truthyS cached then (cached, doc, 0)
  else
    let content := sv.fetchDocument doc.url
    if truthyS content && !truthyS doc.file_path then
      let file_key := "documents/" ++ toString doc.id ++ "_"
        ++ String.mk (doc.title.data.map (fun c => if c = ' ' then '_' else c)) ++ ".txt"
      if sv.s3upload (content.getD "") file_key then
        (content, { doc with file_path := some file_key }, 1)
      else (content, doc, 1)
    else (content, doc, 1)

/-- `DocumentAnalyzer.analyze_document` (analyzer.py lines 30-88). State
mutations committed through the session are modelled by the returned
document and analysis table; the `bool` is the function's return value. -/
def analyze_document (sv : Services) (doc : Document) (analyses : List Analysis)
    (custom_prompt : Option String) : Bool × Document × List Analysis :=
  let doc1 : Document := { doc with status := DocumentStatus.ANALYZING }
  let r := get_document_content sv doc1
  let content := r.1
  let doc2 := r.2.1
  if !truthyS content then
    (false, { doc2 with status := DocumentStatus.ERROR }, analyses)
  else
    let prompt := if truthyS custom_prompt then custom_prompt.getD ""
      else sv.custom_prompt_config
    let analysis_content := (analyze_content_with_chunking sv.llm (content.getD "") prompt).1
    if !truthyS analysis_content then
      (false, { doc2 with status := DocumentStatus.ERROR }, analyses)
    else
      (true, { doc2 with status := DocumentStatus.ANALYZED },
        analyses ++ [⟨doc2.id, AnalysisType.CUSTOM_PROMPT, analysis_content.getD ""⟩])

/-- The eligibility check of the `/api/documents/{id}/analyze` endpoint
(routers/documents.py line 124): analysis may be requested only for
`SCRAPED` or `ANALYZED` documents. -/
def analysis_precondition (s : DocumentStatus) : Bool :=
  s = DocumentStatus.SCRAPED || s = DocumentStatus.ANALYZED

/-! ### Analyzer lemmas and claim theorems -/

theorem summarizeChunks_eq (llm : String → Option String) (numChunks : Nat) :
    ∀ (cs : List (List Char)) (i : Nat) (acc : List String) (calls : Nat),
      summarizeChunks llm numChunks cs i acc calls =
        (acc ++ (cs.enumFrom i).filterMap
            (fun p => llm (chunkPrompt numChunks p.1 (String.mk p.2))),
          calls + cs.length) := by
  intro cs
  induction cs with
  | nil => intro i acc calls; simp [summarizeChunks, List.enumFrom]
  | cons c rest ih =>
    intro i acc calls
    cases hl : llm (chunkPrompt numChunks i (String.mk c)) with
    | some s =>
      simp only [summarizeChunks, hl, ih, List.enumFrom, List.filterMap_cons,
        List.append_assoc, List.singleton_append, List.length_cons, Prod.mk.injEq]
      exact ⟨trivial, by omega⟩
    | none =>
      simp only [summarizeChunks, hl, ih, List.enumFrom, List.filterMap_cons,
        List.length_cons, Prod.mk.injEq]
      exact ⟨trivial, by omega⟩

/-- C3: the orchestrator estimates token cost as
`len(text)/4 + len(prompt)/4 + 500`; within the 8000-token single-call
budget it issues exactly one model call whose output is the result;
otherwise it summarizes each 20000-character chunk independently, skips
chunks whose summarization call fails, joins the successful summaries in
original order with blank-line separators and makes one final call
combining the original prompt with the combined summary; with zero
successful chunk summaries the whole analysis fails. -/
theorem analyze_orchestration (llm : String → Option String) (content prompt : String) :
    (content.length / 4 + prompt.length / 4 + 500 ≤ 8000 →
      analyze_content_with_chunking llm content prompt = (llm (fullPrompt prompt content), 1)) ∧
    (8000 < content.length / 4 + prompt.length / 4 + 500 →
      (chunk_content content.data 20000).enum.filterMap
          (fun p => llm (chunkPrompt (chunk_content content.data 20000).length p.1
            (String.mk p.2))) = [] →
      analyze_content_with_chunking llm content prompt
        = (none, (chunk_content content.data 20000).length)) ∧
    (8000 < content.length / 4 + prompt.length / 4 + 500 →
      ∀ sums, sums = (chunk_content content.data 20000).enum.filterMap
          (fun p => llm (chunkPrompt (chunk_content content.data 20000).length p.1
            (String.mk p.2))) →
        sums ≠ [] →
        analyze_content_with_chunking llm content prompt
          = (llm (finalPrompt prompt (String.intercalate "\n\n" sums)),
            (chunk_content content.data 20000).length + 1)) := by
  refine ⟨?_, ?_, ?_⟩
  · intro hle
    unfold analyze_content_with_chunking
    rw [if_pos hle]
  · intro hgt hempty
    unfold analyze_content_with_chunking
    rw [if_neg (by omega)]
    simp only [summarizeChunks_eq, List.nil_append, Nat.zero_add]
    simp only [List.enum] at hempty
    rw [hempty]
    simp
  · intro hgt sums hsums hne
    unfold analyze_content_with_chunking
    rw [if_neg (by omega)]
    simp only [summarizeChunks_eq, List.nil_append, Nat.zero_add]
    simp only [List.enum] at hsums
    rw [← hsums]
    cases sums with
    | nil => exact absurd rfl hne
    | cons a as => simp

/-- Witness for C3: a short text stays on the direct single-call path. -/
theorem analyze_orchestration_witness :
    analyze_content_with_chunking (fun _ => some "ok") "minutes text" "p"
      = ((fun (_ : String) => some "ok") (fullPrompt "p" "minutes text"), 1) :=
  (analyze_orchestration (fun _ => some "ok") "minutes text" "p").1 (by decide)

/-- C2: whenever `analyze_document` returns failure, the document's final
persisted state is `ERROR` — never `ANALYZING` — and the analysis table is
unchanged (no `AnalysisRecord` is created for the attempt). -/
theorem analyze_document_failure_state (sv : Services) (doc : Document)
    (analyses : List Analysis) (custom_prompt : Option String)
    (h : (analyze_document sv doc analyses custom_prompt).1 = false) :
    (analyze_document sv doc analyses custom_prompt).2.1.status = DocumentStatus.ERROR ∧
    (analyze_document sv doc analyses custom_prompt).2.2 = analyses := by
  by_cases h1 : truthyS (get_document_content sv { doc with status := DocumentStatus.ANALYZING }).1
  · by_cases h2 : truthyS (analyze_content_with_chunking sv.llm
        ((get_document_content sv { doc with status := DocumentStatus.ANALYZING }).1.getD "")
        (if truthyS custom_prompt then custom_prompt.getD "" else sv.custom_prompt_config)).1
    · simp [analyze_document, h1, h2] at h
    · constructor <;> simp [analyze_document, h1, h2]
  · constructor <;> simp [analyze_document, h1]

/-- Witness for C2: content resolution fails (no cache, fetch fails), the
document ends in `ERROR` with no analysis record. -/
theorem analyze_document_failure_state_witness :
    (analyze_document
        ⟨fun _ => none, fun _ _ => false, fun _ => none, fun _ => none, "p"⟩
        ⟨1, "t", "u", none, DocumentStatus.SCRAPED⟩ [] none).1 = false ∧
    ((analyze_document
        ⟨fun _ => none, fun _ _ => false, fun _ => none, fun _ => none, "p"⟩
        ⟨1, "t", "u", none, DocumentStatus.SCRAPED⟩ [] none).2.1.status
          = DocumentStatus.ERROR ∧
      (analyze_document
        ⟨fun _ => none, fun _ _ => false, fun _ => none, fun _ => none, "p"⟩
        ⟨1, "t", "u", none, DocumentStatus.SCRAPED⟩ [] none).2.2 = []) :=
  ⟨rfl, analyze_document_failure_state _ _ _ _ rfl⟩

/-- C9: re-running analysis on an `ANALYZED` document is permitted (the
endpoint's precondition accepts `ANALYZED`), and on success exactly one
additional `AnalysisRecord` is appended while every previously created
record remains present and unmodified. -/
theorem reanalysis_accumulates (sv : Services) (doc : Document)
    (analyses : List Analysis) (custom_prompt : Option String)
    (hstatus : doc.status = DocumentStatus.ANALYZED)
    (h : (analyze_document sv doc analyses custom_prompt).1 = true) :
    analysis_precondition DocumentStatus.ANALYZED = true ∧
    ∃ a, (analyze_document sv doc analyses custom_prompt).2.2 = analyses ++ [a] ∧
      (analyze_document sv doc analyses custom_prompt).2.1.status = DocumentStatus.ANALYZED := by
  refine ⟨rfl, ?_⟩
  by_cases h1 : truthyS (get_document_content sv { doc with status := DocumentStatus.ANALYZING }).1
  · by_cases h2 : truthyS (analyze_content_with_chunking sv.llm
        ((get_document_content sv { doc with status := DocumentStatus.ANALYZING }).1.getD "")
        (if truthyS custom_prompt then custom_prompt.getD "" else sv.custom_prompt_config)).1
    · have hred : analyze_document sv doc analyses custom_prompt =
          (true,
            { (get_document_content sv { doc with status := DocumentStatus.ANALYZING }).2.1 with
                status := DocumentStatus.ANALYZED },
            analyses ++
              [⟨(get_document_content sv { doc with status := DocumentStatus.ANALYZING }).2.1.id,
                AnalysisType.CUSTOM_PROMPT,
                ((analyze_content_with_chunking sv.llm
                    ((get_document_content sv
                        { doc with status := DocumentStatus.ANALYZING }).1.getD "")
                    (if truthyS custom_prompt then custom_prompt.getD ""
                      else sv.custom_prompt_config)).1).getD ""⟩]) := by
        simp [analyze_document, h1, h2]
      rw [hred]
      exact ⟨_, rfl, rfl⟩
    · simp [analyze_document, h1, h2] at h
  · simp [analyze_document, h1] at h

/-! ## Scraper (`SFBOSScraper`, scraper.py) -/

/-- A listing candidate as produced by `get_meeting_minutes_urls`
(scraper.py lines 101-105). -/
structure DocInfo where
  title : String
  url : String
  date : String
deriving DecidableEq, Repr

/-- Lowercase a string character-wise (Python `str.lower` restricted to
the ASCII data appearing in headers and URLs). -/
def pyLower (s : String) : String :=
  String.mk (s.data.map Char.toLower)

/-- Python `sub in s` (substring containment). -/
def pyContains (s sub : String) : Bool :=
  (List.range (s.data.length + 1)).any (fun i => matchesAt s.data sub.data i)

/-- Python `s.endswith(suffix)`. -/
def pyEndsWith (s suffix : String) : Bool :=
  suffix.data.isSuffixOf s.data

/-- Python `s.startswith(c)` for the single-character case used by the
relative-URL check. -/
def pyStartsWithSlash (s : String) : Bool :=
  match s.data with
  | [] => false
  | c :: _ => c = '/'

/-! ### Document retrieval dispatch (`download_document_content`,
scraper.py lines 117-146) -/

/-- The raw HTTP response of the document fetch: the declared
`content-type` header (absent when the server sent none) and the body.
`none` at the fetch level models a transport failure
(`requests.RequestException`). -/
structure HttpResponse where
  contentTypeHeader : Option String
  body : String
deriving Repr

/-- The PDF/HTML dispatch condition of `download_document_content`
(scraper.py line 134): `'application/pdf' in content_type or
url.lower().endswith('.pdf')`, where `content_type` is the lowercased
declared header defaulting to `""`. -/
def dispatch_is_pdf (contentTypeHeader : Option String) (url : String) : Bool :=
  let content_type := pyLower (contentTypeHeader.getD "")
  pyContains content_type "application/pdf" || pyEndsWith (pyLower url) ".pdf"

/-- `download_document_content` (scraper.py lines 117-146), with the two
extractors (`_extract_pdf_text`, `_extract_html_text`) as oracles. -/
def download_document_content (fetch : Option HttpResponse)
    (extractPdf extractHtml : String → Option String) (url : String) : Option String :=
  match fetch with
  | none => none
  | some resp =>
    if dispatch_is_pdf resp.contentTypeHeader url then extractPdf resp.body
    else extractHtml resp.body

/-- Modelled from the spec (§4.2, and the C6 claim's wording), for
comparison with `dispatch_is_pdf`: the declared content type decides
first, and the URL's `.pdf` suffix is consulted only as a fallback when
the declared type is absent or empty. -/
def spec_dispatch_is_pdf (contentTypeHeader : Option String) (url : String) : Bool :=
  match contentTypeHeader with
  | none => pyEndsWith (pyLower url) ".pdf"
  | some ct =>
    if ct = "" then pyEndsWith (pyLower url) ".pdf"
    else pyContains (pyLower ct) "application/pdf"

/-! ### Listing retrieval (`get_meeting_minutes_urls`, scraper.py lines
27-115)

The parsed listing page is modelled post-BeautifulSoup: a list of tables,
each a list of `<tr>` rows, each a list of cells; a cell records whether
it is a `<th>`, its text, and the `href` of its first `<a>` (if any). -/

structure Cell where
  isTh : Bool
  text : String
  href : Option String
deriving DecidableEq, Repr

structure HtmlTable where
  rows : List (List Cell)
deriving DecidableEq, Repr

/-- Does a table's first row contain a cell (th or td) whose text contains
`"Minutes"` (scraper.py lines 47-53)? -/
def tableMentionsMinutes (t : HtmlTable) : Bool :=
  match t.rows.head? with
  | none => false
  | some headerRow => headerRow.any (fun c => pyContains c.text "Minutes")

/-- The table-selection policy (scraper.py lines 42-61): the first table
whose header row mentions `"Minutes"`, else the first table on the page,
else none. -/
def selectMeetingsTable (tables : List HtmlTable) : Option HtmlTable :=
  match tables.find? tableMentionsMinutes with
  | some t => some t
  | none => tables.head?

/-- The per-row minutes-link search (scraper.py lines 75-91): first the
third column's link, then any cell whose (truthy) href contains
`"minutes"` case-insensitively. -/
def rowMinutesUrl (cells : List Cell) : Option String :=
  let fromThird : Option String :=
    match cells.get? 2 with
    | some c => if truthyS c.href then c.href else none
    | none => none
  if truthyS fromThird then fromThird
  else
    match cells.findSome? (fun c =>
        match c.href with
        | some h => if h ≠ "" && pyContains (pyLower h) "minutes" then some h else none
        | none => none) with
    | some h => some h
    | none => fromThird

/-- `get_meeting_minutes_urls` (scraper.py lines 27-115): `page = none`
models a transport failure (`requests.RequestException`); both failure
paths return `[]`, exactly as the Python code does. -/
def get_meeting_minutes_urls (base_url : String) (page : Option (List HtmlTable)) :
    List DocInfo :=
  match page with
  | none => []
  | some tables =>
    match selectMeetingsTable tables with
    | none => []
    | some meetingsTable =>
      (meetingsTable.rows.drop 1).filterMap (fun row =>
        let cells := row.filter (fun c => !c.isTh)
        if 3 ≤ cells.length then
          match rowMinutesUrl cells with
          | some minutesUrl =>
            if minutesUrl ≠ "" then
              let date_text := ((cells.get? 0).map Cell.text).getD ""
              let finalUrl := if pyStartsWithSlash minutesUrl
                then base_url ++ minutesUrl else minutesUrl
              some ⟨"Board Meeting Minutes - " ++ date_text, finalUrl, date_text⟩
            else none
          | none => none
        else none)

/-! ### Discovery (`check_for_new_documents`, scraper.py lines 223-260) -/

/-- The creation loop of `check_for_new_documents` (scraper.py lines
241-252): one new `PENDING` record per candidate whose URL is not among
the existing URLs. The set of existing URLs is computed once, before the
loop, exactly as in the Python code. -/
def discoverLoop (existing_urls : List String) : List DocInfo → List Document
  | [] => []
  | d :: rest =>
    if d.url ∈ existing_urls then discoverLoop existing_urls rest
    else ⟨0, d.title, d.url, none, DocumentStatus.PENDING⟩ :: discoverLoop existing_urls rest

/-- `check_for_new_documents` (scraper.py lines 223-260) over a resolved
listing, together with its batch commit (scraper.py lines 254-256): the
relational store enforces the `unique=True` constraint on `Document.url`
(models.py line 36, installed by `Base.metadata.create_all`), so a commit
whose resulting table would hold two records with the same URL raises
`IntegrityError`, aborting the whole batch and persisting nothing;
`Except.error ()` models that propagated exception. Returns the outcome
(the created records, on success) and the committed database contents
(the ORM assigns real ids at commit; ids are irrelevant to the claims and
kept at 0). -/
def check_for_new_documents (available_docs : List DocInfo) (db : List Document) :
    Except Unit (List Document) × List Document :=
  let new_documents := discoverLoop (db.map Document.url) available_docs
  if new_documents.isEmpty then (Except.ok new_documents, db)
  else if ((db ++ new_documents).map Document.url).Nodup then
    (Except.ok new_documents, db ++ new_documents)
  else (Except.error (), db)

/-! ### Scraper lemmas and claim theorems -/

theorem discoverLoop_eq_filter (existing_urls : List String) (l : List DocInfo) :
    discoverLoop existing_urls l =
      (l.filter (fun d => decide (d.url ∉ existing_urls))).map
        (fun d => ⟨0, d.title, d.url, none, DocumentStatus.PENDING⟩) := by
  induction l with
  | nil => rfl
  | cons d rest ih =>
    simp only [discoverLoop, List.filter_cons]
    by_cases hd : d.url ∈ existing_urls
    · rw [if_pos hd, ih]
      simp [hd]
    · rw [if_neg hd]
      simp [hd, ih]

theorem discoverLoop_urls (existing_urls : List String) (l : List DocInfo) :
    (discoverLoop existing_urls l).map Document.url =
      (l.map DocInfo.url).filter (fun u => decide (u ∉ existing_urls)) := by
  rw [discoverLoop_eq_filter]
  induction l with
  | nil => rfl
  | cons d rest ih =>
    simp only [List.filter_cons, List.map_cons]
    by_cases hd : d.url ∈ existing_urls
    · simp only [hd, not_true, decide_False, List.map_cons] at *
      simpa using ih
    · simp only [hd, not_false_iff, decide_True, List.map_cons] at *
      simpa using ih

theorem discoverLoop_eq_nil (existing_urls : List String) (l : List DocInfo)
    (h : ∀ d ∈ l, d.url ∈ existing_urls) : discoverLoop existing_urls l = [] := by
  induction l with
  | nil => rfl
  | cons d rest ih =>
    simp only [discoverLoop]
    rw [if_pos (h d (List.mem_cons_self d rest))]
    exact ih (fun d' hd' => h d' (List.mem_cons_of_mem d hd'))

theorem check_for_new_documents_ok {available_docs : List DocInfo} {db : List Document}
    {new_docs : List Document}
    (h : (check_for_new_documents available_docs db).1 = Except.ok new_docs) :
    new_docs = discoverLoop (db.map Document.url) available_docs := by
  simp only [check_for_new_documents] at h
  split at h
  · exact (Except.ok.inj h).symm
  · split at h
    · exact (Except.ok.inj h).symm
    · simp at h

theorem check_for_new_documents_success (available_docs : List DocInfo) (db : List Document)
    (h : ((db ++ discoverLoop (db.map Document.url) available_docs).map Document.url).Nodup) :
    check_for_new_documents available_docs db =
      (Except.ok (discoverLoop (db.map Document.url) available_docs),
        db ++ discoverLoop (db.map Document.url) available_docs) := by
  simp only [check_for_new_documents]
  by_cases he : (discoverLoop (db.map Document.url) available_docs).isEmpty = true
  · have hnil : discoverLoop (db.map Document.url) available_docs = [] := by
      simpa using he
    rw [if_pos he, hnil]
    simp
  · rw [if_neg he, if_pos h]

theorem check_for_new_documents_error (available_docs : List DocInfo) (db : List Document)
    (hne : discoverLoop (db.map Document.url) available_docs ≠ [])
    (h : ¬ ((db ++ discoverLoop (db.map Document.url) available_docs).map Document.url).Nodup) :
    check_for_new_documents available_docs db = (Except.error (), db) := by
  simp only [check_for_new_documents]
  rw [if_neg (by simpa using hne), if_neg h]

/-- Counterexample to C4 as stated: a listing whose rows repeat one new
URL (nothing in the source dedupes candidates within a run) makes the
batch commit violate the unique constraint on `Document.url`: the run
aborts with the propagated error, zero records are persisted, and in
particular its two unmatched candidates do not each yield one new
`PENDING` record. -/
theorem discovery_duplicate_url_counterexample :
    (check_for_new_documents [⟨"t1", "u", "d1"⟩, ⟨"t2", "u", "d2"⟩] []).1
        = Except.error () ∧
    (check_for_new_documents [⟨"t1", "u", "d1"⟩, ⟨"t2", "u", "d2"⟩] []).2 = [] :=
  ⟨rfl, rfl⟩

/-- C4 (amended): discovery never persists two records sharing a URL — no
created record's URL matches an existing record's URL and every run
preserves the store's URL-uniqueness invariant; a failed (aborted) run
leaves the store unchanged; and provided the candidates of a single
listing have pairwise-distinct URLs, the run commits exactly one `PENDING`
record per unmatched candidate, in listing order, and a second run against
the unchanged listing succeeds creating zero new records. (A listing
repeating a new URL instead aborts its whole batch with a uniqueness
error, persisting nothing.) -/
theorem discovery_unique_urls (available_docs : List DocInfo) (db : List Document)
    (hdb : (db.map Document.url).Nodup) :
    ((check_for_new_documents available_docs db).2.map Document.url).Nodup ∧
    (∀ new_docs, (check_for_new_documents available_docs db).1 = Except.ok new_docs →
      ∀ nd ∈ new_docs, nd.url ∉ db.map Document.url ∧ nd.status = DocumentStatus.PENDING) ∧
    ((check_for_new_documents available_docs db).1 = Except.error () →
      (check_for_new_documents available_docs db).2 = db) ∧
    ((available_docs.map DocInfo.url).Nodup →
      (check_for_new_documents available_docs db).1 =
        Except.ok ((available_docs.filter (fun d => decide (d.url ∉ db.map Document.url))).map
          (fun d => ⟨0, d.title, d.url, none, DocumentStatus.PENDING⟩)) ∧
      (check_for_new_documents available_docs
          (check_for_new_documents available_docs db).2).1 = Except.ok [] ∧
      (check_for_new_documents available_docs
          (check_for_new_documents available_docs db).2).2 =
        (check_for_new_documents available_docs db).2) := by
  have hmemnew : ∀ u, u ∈ (discoverLoop (db.map Document.url) available_docs).map Document.url →
      u ∉ db.map Document.url := by
    intro u hu
    rw [discoverLoop_urls] at hu
    exact of_decide_eq_true (List.mem_filter.mp hu).2
  have hne_of : ¬ ((db ++ discoverLoop (db.map Document.url) available_docs).map
        Document.url).Nodup →
      discoverLoop (db.map Document.url) available_docs ≠ [] := by
    intro hfull hnil
    apply hfull
    rw [hnil, List.append_nil]
    exact hdb
  refine ⟨?_, ?_, ?_, ?_⟩
  · by_cases hfull : ((db ++ discoverLoop (db.map Document.url) available_docs).map
        Document.url).Nodup
    · rw [check_for_new_documents_success available_docs db hfull]
      exact hfull
    · rw [check_for_new_documents_error available_docs db (hne_of hfull) hfull]
      exact hdb
  · intro new_docs hok nd hnd
    rw [check_for_new_documents_ok hok] at hnd
    rw [discoverLoop_eq_filter] at hnd
    simp only [List.mem_map, List.mem_filter, decide_eq_true_eq] at hnd
    obtain ⟨d, ⟨_, hdurl⟩, rfl⟩ := hnd
    refine ⟨?_, rfl⟩
    simpa using hdurl
  · intro herr
    by_cases hfull : ((db ++ discoverLoop (db.map Document.url) available_docs).map
        Document.url).Nodup
    · rw [check_for_new_documents_success available_docs db hfull] at herr
      simp at herr
    · rw [check_for_new_documents_error available_docs db (hne_of hfull) hfull]
  · intro hnodup
    have hnewnodup : ((discoverLoop (db.map Document.url) available_docs).map
        Document.url).Nodup := by
      rw [discoverLoop_urls]
      exact hnodup.filter _
    have hfull : ((db ++ discoverLoop (db.map Document.url) available_docs).map
        Document.url).Nodup := by
      rw [List.map_append, List.nodup_append]
      refine ⟨hdb, hnewnodup, ?_⟩
      intro u hu hmem
      exact hmemnew u hmem hu
    have hall : ∀ d ∈ available_docs, d.url ∈
        ((db ++ discoverLoop (db.map Document.url) available_docs).map Document.url) := by
      intro d hd
      rw [List.map_append, List.mem_append]
      by_cases hmem : d.url ∈ db.map Document.url
      · exact Or.inl hmem
      · refine Or.inr ?_
        rw [discoverLoop_urls]
        simp only [List.mem_filter, List.mem_map, decide_eq_true_eq]
        refine ⟨⟨d, hd, rfl⟩, ?_⟩
        simpa using hmem
    have hsecond : discoverLoop
        ((db ++ discoverLoop (db.map Document.url) available_docs).map Document.url)
        available_docs = [] :=
      discoverLoop_eq_nil _ _ hall
    rw [check_for_new_documents_success available_docs db hfull]
    refine ⟨?_, ?_, ?_⟩
    · show Except.ok (discoverLoop (db.map Document.url) available_docs) = _
      rw [discoverLoop_eq_filter]
    · show (check_for_new_documents available_docs
          (db ++ discoverLoop (db.map Document.url) available_docs)).1 = Except.ok []
      simp only [check_for_new_documents, hsecond]
      rfl
    · show (check_for_new_documents available_docs
          (db ++ discoverLoop (db.map Document.url) available_docs)).2
        = db ++ discoverLoop (db.map Document.url) available_docs
      simp only [check_for_new_documents, hsecond]
      rfl

/-- Witness for C4 (amended) at a concrete listing: one candidate already
known, one new, run twice. -/
theorem discovery_unique_urls_witness :
    (([⟨7, "tk", "k", none, DocumentStatus.ANALYZED⟩] : List Document).map
        Document.url).Nodup ∧
    (((check_for_new_documents (["k", "n"].map (fun u => DocInfo.mk ("t" ++ u) u "d"))
        [⟨7, "tk", "k", none, DocumentStatus.ANALYZED⟩]).2.map Document.url).Nodup ∧
    (∀ new_docs, (check_for_new_documents (["k", "n"].map (fun u => DocInfo.mk ("t" ++ u) u "d"))
        [⟨7, "tk", "k", none, DocumentStatus.ANALYZED⟩]).1 = Except.ok new_docs →
      ∀ nd ∈ new_docs,
        nd.url ∉ [⟨7, "tk", "k", none, DocumentStatus.ANALYZED⟩].map Document.url ∧
        nd.status = DocumentStatus.PENDING) ∧
    ((check_for_new_documents (["k", "n"].map (fun u => DocInfo.mk ("t" ++ u) u "d"))
        [⟨7, "tk", "k", none, DocumentStatus.ANALYZED⟩]).1 = Except.error () →
      (check_for_new_documents (["k", "n"].map (fun u => DocInfo.mk ("t" ++ u) u "d"))
        [⟨7, "tk", "k", none, DocumentStatus.ANALYZED⟩]).2
        = [⟨7, "tk", "k", none, DocumentStatus.ANALYZED⟩]) ∧
    (((["k", "n"].map (fun u => DocInfo.mk ("t" ++ u) u "d")).map DocInfo.url).Nodup →
      (check_for_new_documents (["k", "n"].map (fun u => DocInfo.mk ("t" ++ u) u "d"))
        [⟨7, "tk", "k", none, DocumentStatus.ANALYZED⟩]).1 =
        Except.ok (((["k", "n"].map (fun u => DocInfo.mk ("t" ++ u) u "d")).filter
            (fun d => decide (d.url ∉ [⟨7, "tk", "k", none,
              DocumentStatus.ANALYZED⟩].map Document.url))).map
          (fun d => ⟨0, d.title, d.url, none, DocumentStatus.PENDING⟩)) ∧
      (check_for_new_documents (["k", "n"].map (fun u => DocInfo.mk ("t" ++ u) u "d"))
          (check_for_new_documents (["k", "n"].map (fun u => DocInfo.mk ("t" ++ u) u "d"))
            [⟨7, "tk", "k", none, DocumentStatus.ANALYZED⟩]).2).1 = Except.ok [] ∧
      (check_for_new_documents (["k", "n"].map (fun u => DocInfo.mk ("t" ++ u) u "d"))
          (check_for_new_documents (["k", "n"].map (fun u => DocInfo.mk ("t" ++ u) u "d"))
            [⟨7, "tk", "k", none, DocumentStatus.ANALYZED⟩]).2).2 =
        (check_for_new_documents (["k", "n"].map (fun u => DocInfo.mk ("t" ++ u) u "d"))
          [⟨7, "tk", "k", none, DocumentStatus.ANALYZED⟩]).2)) :=
  ⟨by decide, discovery_unique_urls _ _ (by decide)⟩

/-- Counterexample to C6 as stated: a response whose declared content type
is present and unambiguously `text/html` is nevertheless routed to the PDF
extractor because the URL ends in `.pdf` — the suffix is not merely a
fallback for an absent or ambiguous declared type. -/
theorem dispatch_suffix_overrides_counterexample :
    download_document_content
        (some ⟨some "text/html", "BODY"⟩)
        (fun _ => some "pdf extraction") (fun _ => some "html extraction")
        "https://sfbos.org/doc.pdf" = some "pdf extraction" ∧
    dispatch_is_pdf (some "text/html") "https://sfbos.org/doc.pdf" = true ∧
    spec_dispatch_is_pdf (some "text/html") "https://sfbos.org/doc.pdf" = false := by
  refine ⟨?_, by decide, by decide⟩
  decide

/-- C6 (amended): the extraction path is decided by the disjunction of the
declared type and the URL suffix — PDF whenever the lowercased declared
content type contains `application/pdf` or the lowercased URL ends in
`.pdf` (so the suffix decides alone when the header is absent, but also
overrides a non-PDF declared type), and HTML exactly when neither holds;
a transport failure yields no extraction at all. -/
theorem dispatch_policy (extractPdf extractHtml : String → Option String)
    (url : String) (resp : HttpResponse) :
    (pyContains (pyLower (resp.contentTypeHeader.getD "")) "application/pdf" = true →
      download_document_content (some resp) extractPdf extractHtml url
        = extractPdf resp.body) ∧
    (pyEndsWith (pyLower url) ".pdf" = true →
      download_document_content (some resp) extractPdf extractHtml url
        = extractPdf resp.body) ∧
    (pyContains (pyLower (resp.contentTypeHeader.getD "")) "application/pdf" = false →
      pyEndsWith (pyLower url) ".pdf" = false →
      download_document_content (some resp) extractPdf extractHtml url
        = extractHtml resp.body) ∧
    download_document_content none extractPdf extractHtml url = none := by
  refine ⟨?_, ?_, ?_, rfl⟩
  · intro hct
    simp [download_document_content, dispatch_is_pdf, hct]
  · intro hurl
    simp [download_document_content, dispatch_is_pdf, hurl]
  · intro hct hurl
    simp [download_document_content, dispatch_is_pdf, hct, hurl]

/-- Witness for C6 (amended): an absent header with a `.pdf` URL goes to
the PDF extractor. -/
theorem dispatch_policy_witness :
    pyEndsWith (pyLower "https://sfbos.org/m.PDF") ".pdf" = true ∧
    download_document_content (some ⟨none, "B"⟩)
        (fun _ => some "pdf extraction") (fun _ => some "html extraction")
        "https://sfbos.org/m.PDF" = some "pdf extraction" :=
  ⟨by decide,
    (dispatch_policy (fun _ => some "pdf extraction") (fun _ => some "html extraction")
      "https://sfbos.org/m.PDF" ⟨none, "B"⟩).2.1 (by decide)⟩

/-- Counterexample to C7 as stated: a transport failure and a page with no
tabular structure are both reported as the plain value `[]` — the very
value a genuinely empty listing produces — not as distinct `NetworkError`
and `ParseError` outcomes (the source function's only failure signal is an
empty list). -/
theorem listing_errors_counterexample :
    get_meeting_minutes_urls "https://sfbos.org" none = [] ∧
    get_meeting_minutes_urls "https://sfbos.org" (some []) = [] ∧
    get_meeting_minutes_urls "https://sfbos.org" none
      = get_meeting_minutes_urls "https://sfbos.org" (some []) :=
  ⟨rfl, rfl, rfl⟩

/-- C7 (amended): listing retrieval returns the empty listing — not a
distinct error — on transport failure and when no tabular structure can be
located; when tables exist, the first table whose header row mentions
`"Minutes"` is preferred, otherwise the first table on the page is
used. -/
theorem listing_failure_and_selection (base_url : String) :
    get_meeting_minutes_urls base_url none = [] ∧
    get_meeting_minutes_urls base_url (some []) = [] ∧
    (∀ tables : List HtmlTable, selectMeetingsTable tables = none → tables = []) ∧
    (∀ tables t, tables.find? tableMentionsMinutes = some t →
      selectMeetingsTable tables = some t) ∧
    (∀ tables : List HtmlTable, tables.find? tableMentionsMinutes = none →
      selectMeetingsTable tables = tables.head?) := by
  refine ⟨rfl, rfl, ?_, ?_, ?_⟩
  · intro tables h
    unfold selectMeetingsTable at h
    cases hf : tables.find? tableMentionsMinutes with
    | some t => rw [hf] at h; cases h
    | none =>
      rw [hf] at h
      cases tables with
      | nil => rfl
      | cons t rest => cases h
  · intro tables t hf
    unfold selectMeetingsTable
    rw [hf]
  · intro tables hf
    unfold selectMeetingsTable
    rw [hf]

/-- Witness for C7 (amended): with an agenda table first and a
Minutes-headed table second, the Minutes-headed one is selected. -/
theorem listing_failure_and_selection_witness :
    ([⟨[[⟨true, "Agenda", none⟩]]⟩, ⟨[[⟨true, "Minutes", none⟩]]⟩] :
        List HtmlTable).find? tableMentionsMinutes = some ⟨[[⟨true, "Minutes", none⟩]]⟩ ∧
    selectMeetingsTable [⟨[[⟨true, "Agenda", none⟩]]⟩, ⟨[[⟨true, "Minutes", none⟩]]⟩]
      = some ⟨[[⟨true, "Minutes", none⟩]]⟩ :=
  ⟨by decide,
    (listing_failure_and_selection "https://sfbos.org").2.2.2.1 _ _ (by decide)⟩

/-- C8: for a document with a (usable, i.e. Python-truthy) cache-location
whose cache read succeeds with non-empty text, content resolution returns
the cached text immediately: the document is untouched and the fetch
dependency is called zero times. -/
theorem cache_hit_no_fetch (sv : Services) (doc : Document) (path t : String)
    (hpath : doc.file_path = some path) (hne : path ≠ "")
    (hget : sv.s3download path = some t) (htne : t ≠ "") :
    get_document_content sv doc = (some t, doc, 0) := by
  unfold get_document_content
  rw [hpath]
  simp [truthyS, hne, hget, htne]

/-- Witness for C8: the fetch oracle would return different text, but the
cached text is returned with a fetch count of zero. -/
theorem cache_hit_no_fetch_witness :
    (some "key" : Option String) = some "key" ∧
    get_document_content
        ⟨fun k => if k = "key" then some "cached text" else none, fun _ _ => false,
          fun _ => some "freshly fetched", fun _ => none, "p"⟩
        ⟨5, "t", "u", some "key", DocumentStatus.SCRAPED⟩
      = (some "cached text", ⟨5, "t", "u", some "key", DocumentStatus.SCRAPED⟩, 0) :=
  ⟨rfl, cache_hit_no_fetch _ _ "key" "cached text" rfl (by decide) (by decide) (by decide)⟩

/-- Witness for C9: a successful re-analysis of an `ANALYZED` document
with one prior record appends exactly one record and keeps the prior one
intact. -/
theorem reanalysis_accumulates_witness :
    (analyze_document
        ⟨fun _ => some "cached content", fun _ _ => false, fun _ => none,
          fun _ => some "analysis result", "p"⟩
        ⟨3, "t", "u", some "key", DocumentStatus.ANALYZED⟩
        [⟨3, AnalysisType.CUSTOM_PROMPT, "old"⟩] none).1 = true ∧
    (analysis_precondition DocumentStatus.ANALYZED = true ∧
      ∃ a, (analyze_document
          ⟨fun _ => some "cached content", fun _ _ => false, fun _ => none,
            fun _ => some "analysis result", "p"⟩
          ⟨3, "t", "u", some "key", DocumentStatus.ANALYZED⟩
          [⟨3, AnalysisType.CUSTOM_PROMPT, "old"⟩] none).2.2
        = [⟨3, AnalysisType.CUSTOM_PROMPT, "old"⟩] ++ [a] ∧
        (analyze_document
          ⟨fun _ => some "cached content", fun _ _ => false, fun _ => none,
            fun _ => some "analysis result", "p"⟩
          ⟨3, "t", "u", some "key", DocumentStatus.ANALYZED⟩
          [⟨3, AnalysisType.CUSTOM_PROMPT, "old"⟩] none).2.1.status
          = DocumentStatus.ANALYZED) :=
  ⟨by decide,
    reanalysis_accumulates
      ⟨fun _ => some "cached content", fun _ _ => false, fun _ => none,
        fun _ => some "analysis result", "p"⟩
      ⟨3, "t", "u", some "key", DocumentStatus.ANALYZED⟩
      [⟨3, AnalysisType.CUSTOM_PROMPT, "old"⟩] none rfl (by decide)⟩
